import Mathlib

/-!
# WWE Universe Manager — verification of the match-booking and card engine

Shallow embedding of the stateful core of `src/app.py` (class `StorylineApp`):
the match pool, booked-match list, result recording, and card persistence.

Database tables are embedded as in-memory lists of rows; the sqlite queries
the code issues are translated to the corresponding list operations.  Tk
widget state that carries program meaning (the eight participant comboboxes
`mg_vars`, their visibility `grid`/`grid_remove`, and the per-match result
controls that `record_result` disables) is part of the state, since the
code's only guard against double-recording lives in that widget state.
-/

/-- A row of the `wrestlers` table (columns used by the booking engine). -/
structure Wrestler where
  name : String
  gender : String
  alignment : String
  brand : String
deriving Repr, DecidableEq

/-- A row of the `records` table: win/loss counters keyed by wrestler name. -/
structure RecordRow where
  wrestler : String
  wins : Nat
  losses : Nat
deriving Repr, DecidableEq

/-- A row of the `championships` table (the `type` column is `ctype`). -/
structure ChampRow where
  title : String
  brand : String
  current_holder : String
  ctype : String
  won_on : String
  gender : String
deriving Repr, DecidableEq

/-- A row of the `match_history` table. -/
structure HistoryRow where
  card_date : String
  match_number : Nat
  winner : String
  losers : String
  style : String
  championship : String
deriving Repr, DecidableEq

/-- A booked match as built by `add_to_card`: the dict
`{"teams": ..., "style": ..., "championship": ...}`. -/
structure BookedMatch where
  teams : List (List String)
  style : String
  championship : Option String
deriving Repr, DecidableEq

/-- The JSON value forms produced by `json.dumps(self.booked_matches)`:
strings, `null`, arrays and objects are the only constructors the card
payload uses. -/
inductive Json where
  | jstr : String → Json
  | jnull : Json
  | jarr : List Json → Json
  | jobj : List (String × Json) → Json
deriving Repr

/-- A row of the `cards` table.  `card_data` holds the serialized match
list; `json.dumps`/`json.loads` round a Python value through its JSON
tree, so the column is embedded as that tree. -/
structure CardRow where
  id : Nat
  name : String
  brand : String
  card_date : String
  card_data : Json
deriving Repr

/-- The mutable state of `StorylineApp` that the booking engine touches:
the five table stores, the AUTOINCREMENT counter for `cards`, the Match
Generator selections (`mg_brand`, `mg_num`, `mg_fmt`, `mg_style`,
`mg_champ`), the pool `mg_pool`, the eight participant slots `mg_vars`
with their visibility flags, the booked list, and the enabled/disabled
state of each booked match's result controls (rebuilt by `refresh_card`,
disabled by `record_result`). -/
structure AppState where
  wrestlers : List Wrestler
  records : List RecordRow
  championships : List ChampRow
  history : List HistoryRow
  cards : List CardRow
  next_card_id : Nat
  mg_brand : String
  mg_num : Nat
  mg_fmt : String
  mg_style : String
  mg_champ : String
  mg_pool : List String
  mg_vars : List String
  slotVisible : List Bool
  booked_matches : List BookedMatch
  cardControls : List Bool
deriving Repr

/-- `_sort_key`: `name.lstrip('"\'').lower()`. -/
def isQuoteChar (c : Char) : Bool := c == '"' || c == '\''

def sortKey (name : String) : String :=
  String.mk ((name.data.dropWhile isQuoteChar).map Char.toLower)

/-- Lexicographic comparison of character lists by code point — the order
Python uses on the sort keys (a proper prefix sorts first). -/
def charListLe : List Char → List Char → Bool
  | [], _ => true
  | _ :: _, [] => false
  | a :: as, b :: bs =>
    if a.toNat < b.toNat then true
    else if b.toNat < a.toNat then false
    else charListLe as bs

/-- `_sort_key(a) <= _sort_key(b)`. -/
def keyLe (a b : String) : Bool := charListLe (sortKey a).data (sortKey b).data

/-- The comparison under which Python's stable `list.sort(key=_sort_key)`
orders the pool. -/
def poolOrder (a b : String) : Prop := keyLe a b = true

instance : DecidableRel poolOrder :=
  fun a b => inferInstanceAs (Decidable (keyLe a b = true))

/-- `pool.sort(key=self._sort_key)` (a stable sort by `sortKey`). -/
def sortPool (l : List String) : List String := List.insertionSort poolOrder l

/-- `" & ".join(team)` — the rendered label of a team. -/
def joinAmp (t : List String) : String := String.intercalate " & " t

/-- `SELECT brand FROM wrestlers WHERE name=?` + `fetchone`. -/
def get_wrestler_brand (s : AppState) (name : String) : Option String :=
  (s.wrestlers.find? (fun w => w.name == name)).map (fun w => w.brand)

/-- `SELECT gender FROM wrestlers WHERE name=?` + `fetchone`. -/
def get_wrestler_gender (s : AppState) (name : String) : Option String :=
  (s.wrestlers.find? (fun w => w.name == name)).map (fun w => w.gender)

/-- The brand-filter test used whenever a participant is returned to the
pool: `self.mg_brand.get()=="All" or self.get_wrestler_brand(p)==self.mg_brand.get()`. -/
def brandOk (s : AppState) (p : String) : Bool :=
  s.mg_brand == "All" || get_wrestler_brand s p == some s.mg_brand

/-- The common return-to-pool loop of `clear_card`, `delete_match` and
`record_result`: for each participant in order, append it to the pool when
it is not already there and the brand filter accepts it. -/
def returnToPool (s : AppState) (pool : List String) (ps : List String) : List String :=
  ps.foldl (fun acc p => if !(acc.contains p) && brandOk s p then acc ++ [p] else acc) pool

/-- `INSERT OR IGNORE INTO records(wrestler) VALUES(?)` — the `wins` and
`losses` columns default to 0. -/
def insertOrIgnore (recs : List RecordRow) (w : String) : List RecordRow :=
  if recs.any (fun r => r.wrestler == w) then recs else recs ++ [⟨w, 0, 0⟩]

/-- `UPDATE records SET wins=wins+1 WHERE wrestler=?`. -/
def bumpWins (recs : List RecordRow) (w : String) : List RecordRow :=
  recs.map (fun r => if r.wrestler == w then { r with wins := r.wins + 1 } else r)

/-- `UPDATE records SET losses=losses+1 WHERE wrestler=?`. -/
def bumpLosses (recs : List RecordRow) (w : String) : List RecordRow :=
  recs.map (fun r => if r.wrestler == w then { r with losses := r.losses + 1 } else r)

/-- The per-winner pair of statements in `record_result`. -/
def addWin (recs : List RecordRow) (w : String) : List RecordRow :=
  bumpWins (insertOrIgnore recs w) w

/-- The per-loser pair of statements in `record_result`. -/
def addLoss (recs : List RecordRow) (w : String) : List RecordRow :=
  bumpLosses (insertOrIgnore recs w) w

/-- `SELECT wins,losses FROM records WHERE wrestler=?` + `fetchone`. -/
def recLookup (recs : List RecordRow) (w : String) : Option RecordRow :=
  recs.find? (fun r => r.wrestler == w)

/-- The wins counter a reader observes (`fetchone() or (0,0)`). -/
def getWins (recs : List RecordRow) (w : String) : Nat :=
  ((recLookup recs w).map (fun r => r.wins)).getD 0

/-- The losses counter a reader observes (`fetchone() or (0,0)`). -/
def getLosses (recs : List RecordRow) (w : String) : Nat :=
  ((recLookup recs w).map (fun r => r.losses)).getD 0

/-- `fmt.split(" v ")` over the character list: cut at every occurrence of
the three-character separator. -/
def splitVAux : List Char → List Char → List (List Char)
  | [], acc => [acc.reverse]
  | ' ' :: 'v' :: ' ' :: rest, acc => acc.reverse :: splitVAux rest []
  | c :: rest, acc => splitVAux rest (c :: acc)

/-- The value of a decimal digit character, `none` otherwise. -/
def digitVal (c : Char) : Option Nat :=
  if 48 ≤ c.toNat && c.toNat ≤ 57 then some (c.toNat - 48) else none

def parseNatAux : List Char → Nat → Option Nat
  | [], acc => some acc
  | c :: cs, acc =>
    match digitVal c with
    | some d => parseNatAux cs (acc * 10 + d)
    | none => none

/-- Python's `int` on the digit strings of the format table (`int` raises
on an empty or non-digit component, embedded as `none`). -/
def parseNatChars (cs : List Char) : Option Nat :=
  match cs with
  | [] => none
  | _ => parseNatAux cs 0

/-- `list(map(int, fmt.split(" v ")))`; an unparseable component raises in
Python before any state is mutated, embedded as `none`. -/
def parseFmt (fmt : String) : Option (List Nat) :=
  let parts := splitVAux fmt.data []
  if parts.all (fun p => (parseNatChars p).isSome) then
    some (parts.filterMap parseNatChars)
  else none

/-- The team-partition loop of `add_to_card`:
`for n in nums: teams.append(comps[idx:idx+n]); idx += n`. -/
def chunk : List Nat → List String → List (List String)
  | [], _ => []
  | n :: ns, xs => xs.take n :: chunk ns (xs.drop n)

/-- The hand-authored `opts` table of `update_mg_formats`. -/
def optsTable (n : Nat) : List String :=
  match n with
  | 2 => ["1 v 1"]
  | 3 => ["1 v 1 v 1", "1 v 2"]
  | 4 => ["1 v 1 v 1 v 1", "2 v 2", "1 v 3"]
  | 5 => ["1 v 1 v 1 v 1 v 1", "2 v 3"]
  | 6 => ["1 v 1 v 1 v 1 v 1 v 1", "3 v 3", "2 v 2 v 2"]
  | 7 => ["1 v 1 v 1 v 1 v 1 v 1 v 1"]
  | 8 => ["1 v 1 v 1 v 1 v 1 v 1 v 1 v 1", "2 v 2 v 2 v 2", "4 v 4"]
  | _ => []

/-- `SELECT name FROM wrestlers [WHERE brand=?]` — the pool source of
`reset_mg_pool` for the current `mg_brand`. -/
def brandNames (s : AppState) : List String :=
  (if s.mg_brand == "All" then s.wrestlers
   else s.wrestlers.filter (fun w => w.brand == s.mg_brand)).map (fun w => w.name)

/-- `SELECT title FROM championships [WHERE brand=?]`. -/
def titlesFor (s : AppState) (b : String) : List String :=
  (if b == "All" then s.championships
   else s.championships.filter (fun c => c.brand == b)).map (fun c => c.title)

/-! ## Match Generator operations -/

/-- `update_mg_formats`: pick the format list for the participant count,
auto-select its first entry, and expose one participant combobox per
participant (`grid_remove` all eight, then `grid` the first `total`). -/
def update_mg_formats (s : AppState) : AppState :=
  let fmts := optsTable s.mg_num
  let s1 := match fmts with
            | [] => s
            | f :: _ => { s with mg_fmt := f }
  if s1.mg_fmt != "" then
    match parseFmt s1.mg_fmt with
    | some nums =>
        { s1 with slotVisible := (List.range 8).map (fun i => decide (i < nums.sum)) }
    | none => s1
  else s1

/-- The championship gender filter at the end of `load_match_gen_roster`:
with a championship selected, keep only pool members of its gender. -/
def genderFilterPool (s : AppState) : AppState :=
  if s.mg_champ != "" && s.mg_champ != "None" then
    match s.championships.find? (fun c => c.title == s.mg_champ) with
    | some row =>
        { s with mg_pool :=
            s.mg_pool.filter (fun w => get_wrestler_gender s w == some row.gender) }
    | none => s
  else s

/-- The first half of `reset_mg_pool` (lines 705-715): rebuild the pool
from the wrestlers of the current brand, sorted, clear every participant
variable and hide every slot. -/
def reset_pool_core (s : AppState) : AppState :=
  { s with mg_pool := sortPool (brandNames s),
           mg_vars := List.replicate 8 "",
           slotVisible := List.replicate 8 false }

/-- `load_match_gen_roster`: refresh formats, recompute the championship
list for the brand, and if the selected championship is no longer offered
set it to `"None"` — whose write trace fires `on_mg_champ_selected`, which
clears the slots and runs `reset_mg_pool` once more (terminating, because
`"None"` is always in the list).  Finally the gender filter applies when a
championship is still selected. -/
def load_match_gen_roster (s : AppState) : AppState :=
  let s1 := update_mg_formats s
  let titles := sortPool ("None" :: titlesFor s1 s1.mg_brand)
  if s1.mg_champ ∈ titles then genderFilterPool s1
  else
    let s2 := { s1 with mg_champ := "None",
                        mg_vars := List.replicate 8 "",
                        slotVisible := List.replicate 8 false }
    update_mg_formats (reset_pool_core s2)

/-- `reset_mg_pool` (the body of the brand trace). -/
def reset_mg_pool (s : AppState) : AppState :=
  load_match_gen_roster (reset_pool_core s)

/-- `SetBrandFilter`: writing `mg_brand` fires the trace running
`reset_mg_pool`. -/
def setBrandFilter (s : AppState) (b : String) : AppState :=
  reset_mg_pool { s with mg_brand := b }

/-- The first visible empty slot scanned by `add_competitor`'s
`for v,cb in zip(self.mg_vars, self.mg_cbs)` loop. -/
def firstVisibleEmpty (s : AppState) : Option Nat :=
  (List.range 8).find?
    (fun i => s.slotVisible.getD i false && s.mg_vars.getD i "" == "")

/-- `add_competitor(name)`: ignore names not in the pool; otherwise remove
the name from the pool and put it into the first visible empty slot (if
any slot is visible and empty). -/
def add_competitor (s : AppState) (name : String) : AppState :=
  if name ∈ s.mg_pool then
    let s1 := { s with mg_pool := s.mg_pool.erase name }
    match firstVisibleEmpty s with
    | some i => { s1 with mg_vars := s1.mg_vars.set i name }
    | none => s1
  else s

/-- `add_to_card`: parse the format (an `int` failure raises before any
mutation), gather the non-empty participant variables, drop from the pool
those still present, partition the participants per the format, append the
new match and clear the variables.  `refresh_card` rebuilds the result
controls enabled. -/
def add_to_card (s : AppState) : AppState :=
  match parseFmt s.mg_fmt with
  | none => s
  | some nums =>
    let comps := s.mg_vars.filter (fun v => v != "")
    let champ := if s.mg_champ != "" && s.mg_champ != "None" then some s.mg_champ else none
    { s with
      mg_pool := sortPool (comps.foldl (fun acc p => acc.erase p) s.mg_pool),
      booked_matches := s.booked_matches ++ [⟨chunk nums comps, s.mg_style, champ⟩],
      mg_vars := List.replicate 8 "",
      cardControls := List.replicate (s.booked_matches.length + 1) true }

/-- `clear_card`: return every participant of every booked match to the
pool under the brand filter, sort, and empty the booked list. -/
def clear_card (s : AppState) : AppState :=
  { s with
    mg_pool := sortPool (returnToPool s s.mg_pool
                 ((s.booked_matches.map (fun m => m.teams.flatten)).flatten)),
    booked_matches := [],
    cardControls := [] }

/-- `delete_match(index)`: pop the match (an out-of-range index raises
before any mutation), return its participants to the pool under the brand
filter, sort, and rebuild the card display. -/
def delete_match (s : AppState) (index : Nat) : AppState :=
  match s.booked_matches.get? index with
  | none => s
  | some m =>
    { s with
      booked_matches := s.booked_matches.eraseIdx index,
      mg_pool := sortPool (returnToPool s s.mg_pool m.teams.flatten),
      cardControls := List.replicate (s.booked_matches.length - 1) true }

/-- `move_match(idx, delta)`: clamp the destination into range; when it
differs, pop and reinsert, and `refresh_card` rebuilds every match's
controls enabled. -/
def move_match (s : AppState) (idx : Nat) (delta : Int) : AppState :=
  let len := s.booked_matches.length
  let new := (max 0 (min ((len : Int) - 1) ((idx : Int) + delta))).toNat
  if new ≠ idx then
    match s.booked_matches.get? idx with
    | none => s
    | some m =>
      { s with
        booked_matches := (s.booked_matches.eraseIdx idx).insertIdx new m,
        cardControls := List.replicate len true }
  else s

/-! ## Result recording -/

/-- `winners = next((t for t in teams if " & ".join(t) == winner_label), [])`. -/
def winnersOf (m : BookedMatch) (label : String) : List String :=
  (m.teams.find? (fun t => joinAmp t == label)).getD []

/-- `losers = [p for team in teams for p in team if p not in winners]`. -/
def losersOf (m : BookedMatch) (label : String) : List String :=
  m.teams.flatten.filter (fun p => !((winnersOf m label).contains p))

/-- The championship update of `record_result`: when the match carries a
(non-empty) title and the winning team is non-empty, every row of that
title gets `current_holder = winners[0]` and `won_on` the card date. -/
def updateChamps : List ChampRow → Option String → List String → String → List ChampRow
  | champs, some c, winners, d =>
    if c != "" && !winners.isEmpty then
      champs.map (fun row =>
        if row.title == c then { row with current_holder := winners.headD "", won_on := d }
        else row)
    else champs
  | champs, none, _, _ => champs

/-- The mutating tail of `record_result` once the match and a non-empty
winner label are at hand. -/
def applyResult (s : AppState) (index : Nat) (m : BookedMatch)
    (label d : String) : AppState :=
  let winners := winnersOf m label
  let losers := losersOf m label
  { s with
    records := losers.foldl addLoss (winners.foldl addWin s.records),
    championships := updateChamps s.championships m.championship winners d,
    history := s.history ++
      [⟨d, index + 1, label, String.intercalate "," losers, m.style,
        m.championship.getD ""⟩],
    mg_pool := sortPool (returnToPool s s.mg_pool losers),
    cardControls := s.cardControls.set index false }

/-- `record_result(index)` with the combobox text and the calendar date as
arguments: an empty label returns immediately; otherwise the records,
championship, history and pool updates run and the match's controls are
disabled. -/
def record_result (s : AppState) (index : Nat) (label d : String) : AppState :=
  match s.booked_matches.get? index with
  | none => s
  | some m => if label == "" then s else applyResult s index m label d

/-- A result-recording attempt through the UI: the `<<ComboboxSelected>>`
event only fires while the match's winner combobox is enabled. -/
def uiRecordResult (s : AppState) (index : Nat) (label d : String) : AppState :=
  if s.cardControls.getD index false then record_result s index label d else s

/-- A reorder attempt through the UI: the arrow buttons only work while
the match's controls are enabled. -/
def uiMoveMatch (s : AppState) (idx : Nat) (delta : Int) : AppState :=
  if s.cardControls.getD idx false then move_match s idx delta else s

/-! ## Card archive -/

/-- Encoding of one team: a JSON array of name strings. -/
def encodeTeam (t : List String) : Json := Json.jarr (t.map Json.jstr)

/-- `json.dumps` of one booked-match dict (Python preserves the insertion
order `teams`, `style`, `championship`; `None` becomes `null`). -/
def encodeMatch (m : BookedMatch) : Json :=
  Json.jobj [("teams", Json.jarr (m.teams.map encodeTeam)),
             ("style", Json.jstr m.style),
             ("championship", match m.championship with
                              | some c => Json.jstr c
                              | none => Json.jnull)]

/-- `json.dumps(self.booked_matches)` as a JSON tree. -/
def encodeMatches (l : List BookedMatch) : Json := Json.jarr (l.map encodeMatch)

def decodeStrs : List Json → Option (List String)
  | [] => some []
  | Json.jstr s :: js => (decodeStrs js).map (fun t => s :: t)
  | _ => none

def decodeTeam : Json → Option (List String)
  | Json.jarr js => decodeStrs js
  | _ => none

def decodeTeams : List Json → Option (List (List String))
  | [] => some []
  | j :: js =>
    match decodeTeam j, decodeTeams js with
    | some t, some ts => some (t :: ts)
    | _, _ => none

def decodeChamp : Json → Option (Option String)
  | Json.jstr c => some (some c)
  | Json.jnull => some none
  | _ => none

/-- Reading one match dict back.  `json.loads` rebuilds the dict with the
keys in stored order and the app then trusts the shape; the decoder
accepts exactly the shape the encoder writes. -/
def decodeMatch : Json → Option BookedMatch
  | Json.jobj [("teams", Json.jarr ts), ("style", Json.jstr st), ("championship", c)] =>
    (match decodeTeams ts, decodeChamp c with
     | some teams, some ch => some ⟨teams, st, ch⟩
     | _, _ => none)
  | _ => none

def decodeMatchList : List Json → Option (List BookedMatch)
  | [] => some []
  | j :: js =>
    match decodeMatch j, decodeMatchList js with
    | some m, some ms => some (m :: ms)
    | _, _ => none

/-- `json.loads(card_data)` read back into the typed booked list. -/
def decodeMatches : Json → Option (List BookedMatch)
  | Json.jarr js => decodeMatchList js
  | _ => none

/-- The `save` closure of `finalize_card`: with a non-empty name and brand,
insert a `cards` row holding `json.dumps(self.booked_matches)`; the row id
comes from sqlite's AUTOINCREMENT counter. -/
def finalize_card (s : AppState) (nm bd dt : String) : AppState :=
  if nm == "" || bd == "" then s
  else
    { s with
      cards := s.cards ++ [⟨s.next_card_id, nm, bd, dt, encodeMatches s.booked_matches⟩],
      next_card_id := s.next_card_id + 1 }

/-- `load_card_by_id(cid)`: fetch the row (a missing id raises before any
mutation), parse `card_data` and replace `booked_matches` wholesale;
`refresh_card` rebuilds the result controls enabled.  The pool is not
touched.  A payload not of the encoder's shape would crash the later
display code; it is embedded as a no-op and never arises from rows the
app itself wrote. -/
def load_card_by_id (s : AppState) (cid : Nat) : AppState :=
  match s.cards.find? (fun c => c.id == cid) with
  | none => s
  | some row =>
    match decodeMatches row.card_data with
    | some l => { s with booked_matches := l,
                         cardControls := List.replicate l.length true }
    | none => s

/-! ## Helper lemmas about the records table -/

lemma wrestler_of_recLookup {recs : List RecordRow} {w : String} {r : RecordRow}
    (h : recLookup recs w = some r) : r.wrestler = w := by
  have hb := List.find?_some h
  simpa [beq_iff_eq] using hb

lemma recLookup_insertOrIgnore_self (recs : List RecordRow) (w : String) :
    recLookup (insertOrIgnore recs w) w = some ((recLookup recs w).getD ⟨w, 0, 0⟩) := by
  unfold insertOrIgnore
  by_cases h : recs.any (fun r => r.wrestler == w) = true
  · rw [if_pos h]
    have hs : (recs.find? (fun r => r.wrestler == w)).isSome := by
      rw [List.find?_isSome]
      simpa [List.any_eq_true] using h
    obtain ⟨r, hr⟩ := Option.isSome_iff_exists.mp hs
    simp [recLookup, hr]
  · rw [if_neg h]
    have hn : recs.find? (fun r => r.wrestler == w) = none := by
      rw [List.find?_eq_none]
      intro x hx hpx
      exact h (List.any_eq_true.mpr ⟨x, hx, hpx⟩)
    simp [recLookup, List.find?_append, hn]

lemma recLookup_insertOrIgnore_ne (recs : List RecordRow) (w v : String) (hvw : v ≠ w) :
    recLookup (insertOrIgnore recs w) v = recLookup recs v := by
  unfold insertOrIgnore
  by_cases h : recs.any (fun r => r.wrestler == w) = true
  · rw [if_pos h]
  · rw [if_neg h]
    unfold recLookup
    rw [List.find?_append]
    cases hf : recs.find? (fun r => r.wrestler == v) with
    | some r => simp [Option.or]
    | none => simp [Option.or, beq_iff_eq, hvw.symm]

lemma recLookup_bumpWins (recs : List RecordRow) (w v : String) :
    recLookup (bumpWins recs w) v =
      (recLookup recs v).map
        (fun r => if r.wrestler == w then { r with wins := r.wins + 1 } else r) := by
  unfold bumpWins recLookup
  rw [List.find?_map]
  have hp : ((fun r : RecordRow => r.wrestler == v) ∘
      (fun r => if r.wrestler == w then { r with wins := r.wins + 1 } else r)) =
      (fun r : RecordRow => r.wrestler == v) := by
    funext r
    by_cases h : r.wrestler = w <;> simp [Function.comp, h]
  rw [hp]

lemma recLookup_bumpLosses (recs : List RecordRow) (w v : String) :
    recLookup (bumpLosses recs w) v =
      (recLookup recs v).map
        (fun r => if r.wrestler == w then { r with losses := r.losses + 1 } else r) := by
  unfold bumpLosses recLookup
  rw [List.find?_map]
  have hp : ((fun r : RecordRow => r.wrestler == v) ∘
      (fun r => if r.wrestler == w then { r with losses := r.losses + 1 } else r)) =
      (fun r : RecordRow => r.wrestler == v) := by
    funext r
    by_cases h : r.wrestler = w <;> simp [Function.comp, h]
  rw [hp]

/-- One `addWin` call: the looked-up row of `w` afterwards. -/
lemma recLookup_addWin_self (recs : List RecordRow) (w : String) :
    recLookup (addWin recs w) w =
      some (match recLookup recs w with
            | some r => { r with wins := r.wins + 1 }
            | none => ⟨w, 1, 0⟩) := by
  unfold addWin
  rw [recLookup_bumpWins, recLookup_insertOrIgnore_self]
  cases hr : recLookup recs w with
  | some r =>
    have := wrestler_of_recLookup hr
    simp [this]
  | none => simp

lemma recLookup_addWin_ne (recs : List RecordRow) (w v : String) (hvw : v ≠ w) :
    recLookup (addWin recs w) v = recLookup recs v := by
  unfold addWin
  rw [recLookup_bumpWins, recLookup_insertOrIgnore_ne recs w v hvw]
  cases hr : recLookup recs v with
  | some r =>
    have := wrestler_of_recLookup hr
    simp [this, hvw]
  | none => simp

lemma recLookup_addLoss_self (recs : List RecordRow) (w : String) :
    recLookup (addLoss recs w) w =
      some (match recLookup recs w with
            | some r => { r with losses := r.losses + 1 }
            | none => ⟨w, 0, 1⟩) := by
  unfold addLoss
  rw [recLookup_bumpLosses, recLookup_insertOrIgnore_self]
  cases hr : recLookup recs w with
  | some r =>
    have := wrestler_of_recLookup hr
    simp [this]
  | none => simp

lemma recLookup_addLoss_ne (recs : List RecordRow) (w v : String) (hvw : v ≠ w) :
    recLookup (addLoss recs w) v = recLookup recs v := by
  unfold addLoss
  rw [recLookup_bumpLosses, recLookup_insertOrIgnore_ne recs w v hvw]
  cases hr : recLookup recs v with
  | some r =>
    have := wrestler_of_recLookup hr
    simp [this, hvw]
  | none => simp

lemma recLookup_foldl_addWin_not_mem (ws : List String) (recs : List RecordRow) (p : String)
    (h : p ∉ ws) : recLookup (ws.foldl addWin recs) p = recLookup recs p := by
  induction ws generalizing recs with
  | nil => rfl
  | cons a t ih =>
    simp only [List.foldl_cons]
    rw [ih _ (fun hm => h (List.mem_cons_of_mem a hm)),
        recLookup_addWin_ne recs a p (fun he => h (he ▸ List.mem_cons_self a t))]

lemma recLookup_foldl_addLoss_not_mem (ws : List String) (recs : List RecordRow) (p : String)
    (h : p ∉ ws) : recLookup (ws.foldl addLoss recs) p = recLookup recs p := by
  induction ws generalizing recs with
  | nil => rfl
  | cons a t ih =>
    simp only [List.foldl_cons]
    rw [ih _ (fun hm => h (List.mem_cons_of_mem a hm)),
        recLookup_addLoss_ne recs a p (fun he => h (he ▸ List.mem_cons_self a t))]

lemma recLookup_foldl_addWin_mem (ws : List String) (recs : List RecordRow) (w : String)
    (hnd : ws.Nodup) (hm : w ∈ ws) :
    recLookup (ws.foldl addWin recs) w =
      some (match recLookup recs w with
            | some r => { r with wins := r.wins + 1 }
            | none => ⟨w, 1, 0⟩) := by
  induction ws generalizing recs with
  | nil => cases hm
  | cons a t ih =>
    simp only [List.foldl_cons]
    rcases List.mem_cons.mp hm with he | hmt
    · subst he
      have hnt : w ∉ t := (List.nodup_cons.mp hnd).1
      rw [recLookup_foldl_addWin_not_mem t _ w hnt, recLookup_addWin_self]
    · have hne : w ≠ a := by
        rintro rfl
        exact (List.nodup_cons.mp hnd).1 hmt
      rw [ih _ (List.nodup_cons.mp hnd).2 hmt, recLookup_addWin_ne recs a w hne]

lemma recLookup_foldl_addLoss_mem (ws : List String) (recs : List RecordRow) (w : String)
    (hnd : ws.Nodup) (hm : w ∈ ws) :
    recLookup (ws.foldl addLoss recs) w =
      some (match recLookup recs w with
            | some r => { r with losses := r.losses + 1 }
            | none => ⟨w, 0, 1⟩) := by
  induction ws generalizing recs with
  | nil => cases hm
  | cons a t ih =>
    simp only [List.foldl_cons]
    rcases List.mem_cons.mp hm with he | hmt
    · subst he
      have hnt : w ∉ t := (List.nodup_cons.mp hnd).1
      rw [recLookup_foldl_addLoss_not_mem t _ w hnt, recLookup_addLoss_self]
    · have hne : w ≠ a := by
        rintro rfl
        exact (List.nodup_cons.mp hnd).1 hmt
      rw [ih _ (List.nodup_cons.mp hnd).2 hmt, recLookup_addLoss_ne recs a w hne]

/-! ## Helper lemmas about the pool -/

lemma mem_sortPool (l : List String) (x : String) : x ∈ sortPool l ↔ x ∈ l :=
  (List.perm_insertionSort poolOrder l).mem_iff

lemma length_sortPool (l : List String) : (sortPool l).length = l.length :=
  (List.perm_insertionSort poolOrder l).length_eq

lemma mem_returnToPool (s : AppState) (ps : List String) (pool : List String) (x : String) :
    x ∈ returnToPool s pool ps ↔ x ∈ pool ∨ (x ∈ ps ∧ brandOk s x = true) := by
  induction ps generalizing pool with
  | nil => simp [returnToPool]
  | cons p t ih =>
    show x ∈ returnToPool s (if !(pool.contains p) && brandOk s p then pool ++ [p] else pool) t ↔ _
    rw [ih]
    by_cases hb : brandOk s p = true
    · by_cases hc : pool.contains p = true
      · have hpm : p ∈ pool := by simpa using hc
        simp only [hc, Bool.not_true, Bool.false_and, if_false, List.mem_cons]
        constructor
        · rintro (hx | ⟨hxt, hox⟩)
          · exact Or.inl hx
          · exact Or.inr ⟨Or.inr hxt, hox⟩
        · rintro (hx | ⟨hx | hxt, hox⟩)
          · exact Or.inl hx
          · exact Or.inl (hx ▸ hpm)
          · exact Or.inr ⟨hxt, hox⟩
      · have hcf : pool.contains p = false := by simpa using hc
        simp only [hcf, Bool.not_false, hb, Bool.and_true, Bool.and_self, if_true,
          Bool.true_and, List.mem_append, List.mem_cons, List.mem_nil_iff, or_false]
        constructor
        · rintro ((hx | hx) | ⟨hxt, hox⟩)
          · exact Or.inl hx
          · exact Or.inr ⟨Or.inl hx, hx ▸ hb⟩
          · exact Or.inr ⟨Or.inr hxt, hox⟩
        · rintro (hx | ⟨hx | hxt, hox⟩)
          · exact Or.inl (Or.inl hx)
          · exact Or.inl (Or.inr hx)
          · exact Or.inr ⟨hxt, hox⟩
    · have hbf : brandOk s p = false := by simpa using hb
      simp only [hbf, Bool.and_false, if_false, List.mem_cons]
      constructor
      · rintro (hx | ⟨hxt, hox⟩)
        · exact Or.inl hx
        · exact Or.inr ⟨Or.inr hxt, hox⟩
      · rintro (hx | ⟨hx | hxt, hox⟩)
        · exact Or.inl hx
        · exact absurd hox (by rw [hx, hbf]; simp)
        · exact Or.inr ⟨hxt, hox⟩

/-! ## Helper lemmas about team partitioning, erasure and cards -/

lemma chunk_flatten (nums : List Nat) (xs : List String) :
    (chunk nums xs).flatten = xs.take nums.sum := by
  induction nums generalizing xs with
  | nil => simp [chunk]
  | cons n ns ih =>
    simp only [chunk, List.flatten_cons, ih, List.sum_cons]
    rw [List.take_add]

lemma chunk_lengths (nums : List Nat) (xs : List String) (h : nums.sum ≤ xs.length) :
    (chunk nums xs).map List.length = nums := by
  induction nums generalizing xs with
  | nil => simp [chunk]
  | cons n ns ih =>
    simp only [chunk, List.map_cons]
    have hn : n ≤ xs.length := by
      have := List.sum_cons (a := n) (l := ns)
      omega
    rw [List.length_take, Nat.min_eq_left hn, ih]
    have hd : (xs.drop n).length = xs.length - n := List.length_drop n xs
    have := List.sum_cons (a := n) (l := ns)
    omega

lemma foldl_erase_eq_filter (comps : List String) (pool : List String) (h : pool.Nodup) :
    comps.foldl (fun acc p => acc.erase p) pool
      = pool.filter (fun x => !(comps.contains x)) := by
  induction comps generalizing pool with
  | nil => simp
  | cons c t ih =>
    simp only [List.foldl_cons]
    rw [ih _ (h.erase c), h.erase_eq_filter c, List.filter_filter]
    congr 1
    funext x
    by_cases hx : x = c <;> simp [hx, List.contains_cons]

lemma find?_append_new_card (cards : List CardRow) (row : CardRow)
    (h : ∀ c ∈ cards, c.id ≠ row.id) :
    (cards ++ [row]).find? (fun c => c.id == row.id) = some row := by
  rw [List.find?_append]
  have hn : cards.find? (fun c => c.id == row.id) = none := by
    rw [List.find?_eq_none]
    intro x hx hpx
    exact h x hx (by simpa using hpx)
  simp [hn]

/-! ## Helper lemmas: the card payload round-trips through JSON -/

lemma decodeStrs_encode (t : List String) : decodeStrs (t.map Json.jstr) = some t := by
  induction t with
  | nil => rfl
  | cons a t ih => simp [decodeStrs, ih]

lemma decodeTeam_encodeTeam (t : List String) : decodeTeam (encodeTeam t) = some t := by
  simp [decodeTeam, encodeTeam, decodeStrs_encode]

lemma decodeTeams_encode (ts : List (List String)) :
    decodeTeams (ts.map encodeTeam) = some ts := by
  induction ts with
  | nil => rfl
  | cons a t ih => simp [decodeTeams, decodeTeam_encodeTeam, ih]

lemma decodeMatch_encodeMatch (m : BookedMatch) : decodeMatch (encodeMatch m) = some m := by
  cases m with
  | mk teams style champ =>
    cases champ with
    | none => simp [decodeMatch, encodeMatch, decodeTeams_encode, decodeChamp]
    | some c => simp [decodeMatch, encodeMatch, decodeTeams_encode, decodeChamp]

lemma decodeMatchList_encode (l : List BookedMatch) :
    decodeMatchList (l.map encodeMatch) = some l := by
  induction l with
  | nil => rfl
  | cons m t ih => simp [decodeMatchList, decodeMatch_encodeMatch, ih]

lemma decodeMatches_encodeMatches (l : List BookedMatch) :
    decodeMatches (encodeMatches l) = some l := by
  simp [decodeMatches, encodeMatches, decodeMatchList_encode]

/-! ## Helper lemmas about the control flags -/

lemma getD_set_false (l : List Bool) (i : Nat) (h : i < l.length) :
    (l.set i false).getD i false = false := by
  simp [List.getD, List.getElem?_set, h]

lemma lt_length_of_getD_true (l : List Bool) (i : Nat) (h : l.getD i false = true) :
    i < l.length := by
  by_contra hc
  simp [List.getD, List.getElem?_eq_none (Nat.le_of_not_lt hc)] at h

/-! ## Further records lemmas: the counter a pass never touches -/

lemma getWins_addLoss (recs : List RecordRow) (w p : String) :
    getWins (addLoss recs w) p = getWins recs p := by
  by_cases h : p = w
  · subst h
    unfold getWins
    rw [recLookup_addLoss_self]
    cases hr : recLookup recs p <;> simp
  · unfold getWins
    rw [recLookup_addLoss_ne recs w p h]

lemma getLosses_addWin (recs : List RecordRow) (w p : String) :
    getLosses (addWin recs w) p = getLosses recs p := by
  by_cases h : p = w
  · subst h
    unfold getLosses
    rw [recLookup_addWin_self]
    cases hr : recLookup recs p <;> simp
  · unfold getLosses
    rw [recLookup_addWin_ne recs w p h]

lemma getWins_foldl_addLoss (ws : List String) (recs : List RecordRow) (p : String) :
    getWins (ws.foldl addLoss recs) p = getWins recs p := by
  induction ws generalizing recs with
  | nil => rfl
  | cons a t ih => simp only [List.foldl_cons]; rw [ih, getWins_addLoss]

lemma getLosses_foldl_addWin (ws : List String) (recs : List RecordRow) (p : String) :
    getLosses (ws.foldl addWin recs) p = getLosses recs p := by
  induction ws generalizing recs with
  | nil => rfl
  | cons a t ih => simp only [List.foldl_cons]; rw [ih, getLosses_addWin]

/-! ## Helper lemmas about `record_result` and the brand filter -/

lemma record_result_eq_applyResult (s : AppState) (i : Nat) (m : BookedMatch)
    (label d : String) (hm : s.booked_matches.get? i = some m) (hl : label ≠ "") :
    record_result s i label d = applyResult s i m label d := by
  unfold record_result
  rw [hm]
  simp only []
  rw [if_neg (by simpa using hl)]

lemma brandOk_iff (s : AppState) (p : String) :
    brandOk s p = true ↔
      (s.mg_brand = "All" ∨ get_wrestler_brand s p = some s.mg_brand) := by
  simp [brandOk]

lemma winnersOf_eq_of_find? (m : BookedMatch) (label : String) (tw : List String)
    (h : m.teams.find? (fun t => joinAmp t == label) = some tw) :
    winnersOf m label = tw := by
  simp [winnersOf, h]

lemma winnersOf_eq_nil_of_find?_none (m : BookedMatch) (label : String)
    (h : m.teams.find? (fun t => joinAmp t == label) = none) :
    winnersOf m label = [] := by
  simp [winnersOf, h]

/-! ## Frame lemmas for the pool-reset path -/

lemma update_mg_formats_frame (t : AppState) :
    (update_mg_formats t).mg_pool = t.mg_pool ∧
    (update_mg_formats t).mg_vars = t.mg_vars ∧
    (update_mg_formats t).booked_matches = t.booked_matches ∧
    (update_mg_formats t).mg_champ = t.mg_champ ∧
    (update_mg_formats t).mg_brand = t.mg_brand ∧
    (update_mg_formats t).championships = t.championships ∧
    (update_mg_formats t).wrestlers = t.wrestlers := by
  unfold update_mg_formats
  cases h : optsTable t.mg_num <;> simp only [h] <;> split <;> (try split) <;> simp

lemma reset_mg_pool_champ_none (s : AppState) (hch : s.mg_champ = "None") :
    (reset_mg_pool s).mg_pool = sortPool (brandNames s) ∧
    (reset_mg_pool s).mg_vars = List.replicate 8 "" ∧
    (reset_mg_pool s).booked_matches = s.booked_matches := by
  unfold reset_mg_pool load_match_gen_roster
  obtain ⟨hp, hv, hb, hc, hbr, hcs, hws⟩ := update_mg_formats_frame (reset_pool_core s)
  have hc' : (update_mg_formats (reset_pool_core s)).mg_champ = "None" := by
    rw [hc]; exact hch
  have hmem : (update_mg_formats (reset_pool_core s)).mg_champ ∈
      sortPool ("None" :: titlesFor (update_mg_formats (reset_pool_core s))
        (update_mg_formats (reset_pool_core s)).mg_brand) := by
    rw [hc', mem_sortPool]
    exact List.mem_cons_self _ _
  rw [if_pos hmem]
  unfold genderFilterPool
  rw [if_neg (by simp [hc'])]
  exact ⟨hp, hv, hb⟩

/-! # Claims -/

/-! ## C9 — loading a card leaves the pool unchanged -/

/-- C9: for every stored card id, `LoadCard` replaces the active
booked-matches list with the deserialized stored list but leaves the pool
completely unchanged, so a wrestler can end up both in the pool and in a
booked match. -/
theorem C9_load_replaces_booked_leaves_pool (s : AppState) (cid : Nat) (row : CardRow)
    (l : List BookedMatch)
    (hrow : s.cards.find? (fun c => c.id == cid) = some row)
    (hdec : decodeMatches row.card_data = some l) :
    (load_card_by_id s cid).mg_pool = s.mg_pool ∧
    (load_card_by_id s cid).booked_matches = l := by
  constructor <;> simp [load_card_by_id, hrow, hdec]

def mC9 : BookedMatch := ⟨[["Alice"], ["Bob"]], "Ladder", none⟩

def rowC9 : CardRow := ⟨1, "RAW Card", "RAW", "2026-01-01", encodeMatches [mC9]⟩

def stC9 : AppState :=
  { wrestlers := [⟨"Alice", "Female", "Face", "RAW"⟩, ⟨"Bob", "Male", "Heel", "RAW"⟩],
    records := [], championships := [], history := [], cards := [rowC9], next_card_id := 2,
    mg_brand := "All", mg_num := 2, mg_fmt := "1 v 1", mg_style := "Ladder",
    mg_champ := "None", mg_pool := ["Alice", "Bob"], mg_vars := List.replicate 8 "",
    slotVisible := [true, true, false, false, false, false, false, false],
    booked_matches := [], cardControls := [] }

theorem C9_witness :
    stC9.cards.find? (fun c => c.id == 1) = some rowC9 ∧
    decodeMatches rowC9.card_data = some [mC9] ∧
    (load_card_by_id stC9 1).mg_pool = stC9.mg_pool ∧
    (load_card_by_id stC9 1).booked_matches = [mC9] :=
  ⟨rfl, rfl,
   (C9_load_replaces_booked_leaves_pool stC9 1 rowC9 [mC9] rfl rfl).1,
   (C9_load_replaces_booked_leaves_pool stC9 1 rowC9 [mC9] rfl rfl).2⟩

/-! ## C8 — save/load round trip -/

/-- C8: `SaveCard` followed by `LoadCard` of the id just saved reproduces
the booked list exactly (same matches in the same order, with identical
teams, style and championship). -/
theorem C8_save_load_round_trip (s : AppState) (nm bd dt : String)
    (hnm : nm ≠ "") (hbd : bd ≠ "")
    (hids : ∀ c ∈ s.cards, c.id ≠ s.next_card_id) :
    (load_card_by_id (finalize_card s nm bd dt) s.next_card_id).booked_matches
      = s.booked_matches := by
  have hrow : finalize_card s nm bd dt =
      { s with
        cards := s.cards ++
          [({ id := s.next_card_id, name := nm, brand := bd, card_date := dt,
              card_data := encodeMatches s.booked_matches } : CardRow)],
        next_card_id := s.next_card_id + 1 } := by
    unfold finalize_card
    rw [if_neg (by simp [hnm, hbd])]
  rw [hrow]
  have hfind :
      (s.cards ++
          [({ id := s.next_card_id, name := nm, brand := bd, card_date := dt,
              card_data := encodeMatches s.booked_matches } : CardRow)]).find?
        (fun c => c.id == s.next_card_id)
      = some ({ id := s.next_card_id, name := nm, brand := bd, card_date := dt,
                card_data := encodeMatches s.booked_matches } : CardRow) :=
    find?_append_new_card s.cards
      ({ id := s.next_card_id, name := nm, brand := bd, card_date := dt,
         card_data := encodeMatches s.booked_matches } : CardRow)
      (fun c hc => hids c hc)
  simp only [load_card_by_id, hfind, decodeMatches_encodeMatches]

def stC8 : AppState :=
  { wrestlers := [⟨"Alice", "Female", "Face", "RAW"⟩, ⟨"Bob", "Male", "Heel", "RAW"⟩],
    records := [], championships := [], history := [], cards := [], next_card_id := 1,
    mg_brand := "All", mg_num := 2, mg_fmt := "1 v 1", mg_style := "Ladder",
    mg_champ := "None", mg_pool := [], mg_vars := List.replicate 8 "",
    slotVisible := [true, true, false, false, false, false, false, false],
    booked_matches := [⟨[["Alice"], ["Bob"]], "Ladder", none⟩, ⟨[["Carol", "Dana"], ["Eve", "Fay"]], "Tables", some "Tag Title"⟩],
    cardControls := [true, true] }

theorem C8_witness :
    ("RAW Card" ≠ "" ∧ "RAW" ≠ "" ∧ (∀ c ∈ stC8.cards, c.id ≠ stC8.next_card_id)) ∧
    (load_card_by_id (finalize_card stC8 "RAW Card" "RAW" "2026-01-01")
        stC8.next_card_id).booked_matches = stC8.booked_matches :=
  ⟨⟨by decide, by decide, by simp [stC8]⟩,
   C8_save_load_round_trip stC8 "RAW Card" "RAW" "2026-01-01" (by decide) (by decide)
     (by simp [stC8])⟩

/-! ## C7 — championship updates on resolution -/

/-- C7: when a resolved match carries a (non-empty) championship and the
winning team is non-empty, every row of that title gets the first winner's
name as holder and the effective date as `won_on`, all other rows being
untouched; a match without a championship, or an empty winning team,
changes no championship row. -/
theorem C7_championship_holder (s : AppState) (i : Nat) (m : BookedMatch) (label d : String)
    (hm : s.booked_matches.get? i = some m) (hl : label ≠ "") :
    (∀ c tw, m.championship = some c → c ≠ "" →
        m.teams.find? (fun t => joinAmp t == label) = some tw → tw ≠ [] →
        (record_result s i label d).championships
          = s.championships.map (fun row =>
              if row.title == c then { row with current_holder := tw.headD "", won_on := d }
              else row)) ∧
    (m.championship = none →
        (record_result s i label d).championships = s.championships) ∧
    (m.teams.find? (fun t => joinAmp t == label) = none →
        (record_result s i label d).championships = s.championships) := by
  rw [record_result_eq_applyResult s i m label d hm hl]
  refine ⟨?_, ?_, ?_⟩
  · intro c tw hc hcne hfind htw
    show updateChamps s.championships m.championship (winnersOf m label) d = _
    rw [winnersOf_eq_of_find? m label tw hfind, hc]
    show (if (c != "" && !tw.isEmpty) = true then _ else _) = _
    rw [if_pos (by simp [hcne, htw])]
  · intro hc
    show updateChamps s.championships m.championship (winnersOf m label) d = _
    rw [hc]
    rfl
  · intro hfind
    show updateChamps s.championships m.championship (winnersOf m label) d = _
    rw [winnersOf_eq_nil_of_find?_none m label hfind]
    cases hc : m.championship with
    | none => rfl
    | some c =>
      show (if (c != "" && !([] : List String).isEmpty) = true then _ else _) = _
      rw [if_neg (by simp)]

def stC7 : AppState :=
  { wrestlers := [⟨"Alice", "Female", "Face", "RAW"⟩, ⟨"Amy", "Female", "Face", "RAW"⟩,
                  ⟨"Beth", "Female", "Heel", "RAW"⟩, ⟨"Bess", "Female", "Heel", "RAW"⟩],
    records := [],
    championships := [⟨"Tag Title", "RAW", "Beth & Bess", "Tag", "2025-01-01", "Female"⟩],
    history := [], cards := [], next_card_id := 1,
    mg_brand := "All", mg_num := 4, mg_fmt := "2 v 2", mg_style := "Tables",
    mg_champ := "None", mg_pool := [], mg_vars := List.replicate 8 "",
    slotVisible := [true, true, true, true, false, false, false, false],
    booked_matches := [⟨[["Alice", "Amy"], ["Beth", "Bess"]], "Tables", some "Tag Title"⟩],
    cardControls := [true] }

theorem C7_witness :
    (stC7.booked_matches.get? 0 = some ⟨[["Alice", "Amy"], ["Beth", "Bess"]], "Tables", some "Tag Title"⟩ ∧
     ("Alice & Amy" : String) ≠ "" ∧ ("Tag Title" : String) ≠ "") ∧
    (record_result stC7 0 "Alice & Amy" "2026-01-01").championships
      = [⟨"Tag Title", "RAW", "Alice", "Tag", "2026-01-01", "Female"⟩] := by
  refine ⟨⟨rfl, by decide, by decide⟩, ?_⟩
  rw [(C7_championship_holder stC7 0
        ⟨[["Alice", "Amy"], ["Beth", "Bess"]], "Tables", some "Tag Title"⟩
        "Alice & Amy" "2026-01-01" rfl (by decide)).1
      "Tag Title" ["Alice", "Amy"] rfl (by decide) rfl (by decide)]
  rfl

/-! ## C4 — win/loss bookkeeping of a matched result -/

/-- C4: resolving a match with a label that renders one of its teams
increments each winner's win counter by exactly one and each other
participant's loss counter by exactly one, creating missing rows on demand
starting from 0/0, and leaves every non-participant's row untouched. -/
theorem C4_records_update (s : AppState) (i : Nat) (m : BookedMatch) (label d : String)
    (tw : List String)
    (hm : s.booked_matches.get? i = some m) (hl : label ≠ "")
    (hfind : m.teams.find? (fun t => joinAmp t == label) = some tw)
    (hnd : m.teams.flatten.Nodup) :
    (∀ w ∈ tw,
        getWins (record_result s i label d).records w = getWins s.records w + 1 ∧
        getLosses (record_result s i label d).records w = getLosses s.records w ∧
        (recLookup s.records w = none →
          recLookup (record_result s i label d).records w = some ⟨w, 1, 0⟩)) ∧
    (∀ p ∈ m.teams.flatten, p ∉ tw →
        getLosses (record_result s i label d).records p = getLosses s.records p + 1 ∧
        getWins (record_result s i label d).records p = getWins s.records p ∧
        (recLookup s.records p = none →
          recLookup (record_result s i label d).records p = some ⟨p, 0, 1⟩)) ∧
    (∀ q, q ∉ m.teams.flatten →
        recLookup (record_result s i label d).records q = recLookup s.records q) := by
  rw [record_result_eq_applyResult s i m label d hm hl]
  have hw : winnersOf m label = tw := winnersOf_eq_of_find? m label tw hfind
  have htw_mem : tw ∈ m.teams := List.mem_of_find?_eq_some hfind
  have htw_nd : tw.Nodup := (List.sublist_flatten_of_mem htw_mem).nodup hnd
  have hrecords : (applyResult s i m label d).records
      = (losersOf m label).foldl addLoss (tw.foldl addWin s.records) := by
    show (losersOf m label).foldl addLoss ((winnersOf m label).foldl addWin s.records) = _
    rw [hw]
  have hlosers_mem : ∀ x, x ∈ losersOf m label ↔ (x ∈ m.teams.flatten ∧ x ∉ tw) := by
    intro x
    unfold losersOf
    rw [hw, List.mem_filter]
    simp
  have hlosers_nd : (losersOf m label).Nodup := hnd.filter _
  refine ⟨?_, ?_, ?_⟩
  · intro w hwmem
    have hwnl : w ∉ losersOf m label := by
      rw [hlosers_mem w]
      rintro ⟨_, h2⟩
      exact h2 hwmem
    have h1 : recLookup ((losersOf m label).foldl addLoss (tw.foldl addWin s.records)) w
        = recLookup (tw.foldl addWin s.records) w :=
      recLookup_foldl_addLoss_not_mem _ _ w hwnl
    have h2 := recLookup_foldl_addWin_mem tw s.records w htw_nd hwmem
    refine ⟨?_, ?_, ?_⟩
    · unfold getWins
      rw [hrecords, h1, h2]
      cases hr : recLookup s.records w <;> rw [hr] at h2 <;> simp_all
    · unfold getLosses
      rw [hrecords, h1, h2]
      cases hr : recLookup s.records w <;> rw [hr] at h2 <;> simp_all
    · intro hnone
      rw [hrecords, h1, h2, hnone]
  · intro p hpfl hptw
    have hpl : p ∈ losersOf m label := (hlosers_mem p).mpr ⟨hpfl, hptw⟩
    have h1 := recLookup_foldl_addLoss_mem (losersOf m label) (tw.foldl addWin s.records) p
      hlosers_nd hpl
    have h2 : recLookup (tw.foldl addWin s.records) p = recLookup s.records p :=
      recLookup_foldl_addWin_not_mem tw s.records p hptw
    rw [h2] at h1
    refine ⟨?_, ?_, ?_⟩
    · unfold getLosses
      rw [hrecords, h1]
      cases hr : recLookup s.records p <;> rw [hr] at h1 <;> simp_all
    · unfold getWins
      rw [hrecords, h1]
      cases hr : recLookup s.records p <;> rw [hr] at h1 <;> simp_all
    · intro hnone
      rw [hrecords, h1, hnone]
  · intro q hq
    have hqtw : q ∉ tw := fun hmem =>
      hq (List.mem_flatten.mpr ⟨tw, htw_mem, hmem⟩)
    have hql : q ∉ losersOf m label := by
      rw [hlosers_mem q]
      rintro ⟨h1, _⟩
      exact hq h1
    rw [hrecords, recLookup_foldl_addLoss_not_mem _ _ q hql,
        recLookup_foldl_addWin_not_mem _ _ q hqtw]

def stC4 : AppState :=
  { wrestlers := [⟨"Alice", "Female", "Face", "RAW"⟩, ⟨"Bob", "Male", "Heel", "RAW"⟩],
    records := [], championships := [], history := [], cards := [], next_card_id := 1,
    mg_brand := "All", mg_num := 2, mg_fmt := "1 v 1", mg_style := "Ladder",
    mg_champ := "None", mg_pool := [], mg_vars := List.replicate 8 "",
    slotVisible := [true, true, false, false, false, false, false, false],
    booked_matches := [⟨[["Alice"], ["Bob"]], "Ladder", none⟩],
    cardControls := [true] }

theorem C4_witness :
    (stC4.booked_matches.get? 0 = some ⟨[["Alice"], ["Bob"]], "Ladder", none⟩ ∧
     ("Alice" : String) ≠ "" ∧
     (([["Alice"], ["Bob"]] : List (List String)).flatten).Nodup) ∧
    getWins (record_result stC4 0 "Alice" "2026-01-01").records "Alice"
      = getWins stC4.records "Alice" + 1 ∧
    getLosses (record_result stC4 0 "Alice" "2026-01-01").records "Bob"
      = getLosses stC4.records "Bob" + 1 := by
  refine ⟨⟨rfl, by decide, by decide⟩, ?_, ?_⟩
  · exact ((C4_records_update stC4 0 ⟨[["Alice"], ["Bob"]], "Ladder", none⟩ "Alice"
      "2026-01-01" ["Alice"] rfl (by decide) rfl (by decide)).1 "Alice" (by decide)).1
  · exact (((C4_records_update stC4 0 ⟨[["Alice"], ["Bob"]], "Ladder", none⟩ "Alice"
      "2026-01-01" ["Alice"] rfl (by decide) rfl (by decide)).2.1 "Bob" (by decide))
      (by decide)).1

/-! ## C1 — fate of a winner label that matches no team -/

def stC1 : AppState :=
  { wrestlers := [⟨"Alice", "Female", "Face", "RAW"⟩, ⟨"Bob", "Male", "Heel", "RAW"⟩],
    records := [], championships := [], history := [], cards := [], next_card_id := 1,
    mg_brand := "All", mg_num := 2, mg_fmt := "1 v 1", mg_style := "Ladder",
    mg_champ := "None", mg_pool := [], mg_vars := List.replicate 8 "",
    slotVisible := [true, true, false, false, false, false, false, false],
    booked_matches := [⟨[["Alice"], ["Bob"]], "Ladder", none⟩],
    cardControls := [true] }

/-- C1 fails on the code: `"Charlie"` matches neither rendered team of the
booked match, yet the call mutates the records, appends a history entry
and changes the pool — it is not a no-op. -/
theorem C1_counterexample :
    (joinAmp ["Alice"] ≠ "Charlie" ∧ joinAmp ["Bob"] ≠ "Charlie") ∧
    (record_result stC1 0 "Charlie" "2026-01-01").records ≠ stC1.records ∧
    (record_result stC1 0 "Charlie" "2026-01-01").history ≠ stC1.history ∧
    (record_result stC1 0 "Charlie" "2026-01-01").mg_pool ≠ stC1.mg_pool := by
  decide

/-- C1 amended: only an empty label is a silent no-op.  A non-empty label
matching no team makes the winner set empty, so every participant's loss
counter is incremented (no win counter changes anywhere), a history entry
carrying the unmatched label is appended, no championship row changes, and
all participants are offered back to the pool under the brand filter. -/
theorem C1_amended_unmatched_label (s : AppState) (i : Nat) (m : BookedMatch)
    (label d : String)
    (hm : s.booked_matches.get? i = some m)
    (hl : label ≠ "")
    (hnone : m.teams.find? (fun t => joinAmp t == label) = none) :
    (record_result s i "" d = s) ∧
    (record_result s i label d).championships = s.championships ∧
    (record_result s i label d).history = s.history ++
      [⟨d, i + 1, label, String.intercalate "," m.teams.flatten, m.style,
        m.championship.getD ""⟩] ∧
    (record_result s i label d).booked_matches = s.booked_matches ∧
    (∀ p, getWins (record_result s i label d).records p = getWins s.records p) ∧
    (m.teams.flatten.Nodup → ∀ p ∈ m.teams.flatten,
        getLosses (record_result s i label d).records p = getLosses s.records p + 1) ∧
    (∀ x, x ∈ (record_result s i label d).mg_pool ↔
        x ∈ s.mg_pool ∨ (x ∈ m.teams.flatten ∧ brandOk s x = true)) := by
  have hempty : record_result s i "" d = s := by
    unfold record_result
    rw [hm]
    simp
  rw [record_result_eq_applyResult s i m label d hm hl]
  have hw : winnersOf m label = [] := winnersOf_eq_nil_of_find?_none m label hnone
  have hlos : losersOf m label = m.teams.flatten := by
    unfold losersOf
    rw [hw]
    have hp : (fun p : String => !(([] : List String).contains p)) = fun _ => true := by
      funext p
      simp
    rw [hp, List.filter_true]
  have hrecords : (applyResult s i m label d).records
      = m.teams.flatten.foldl addLoss s.records := by
    show (losersOf m label).foldl addLoss ((winnersOf m label).foldl addWin s.records) = _
    rw [hw, hlos]
    rfl
  refine ⟨hempty, ?_, ?_, rfl, ?_, ?_, ?_⟩
  · show updateChamps s.championships m.championship (winnersOf m label) d = _
    rw [hw]
    cases hc : m.championship with
    | none => rfl
    | some c =>
      show (if (c != "" && !([] : List String).isEmpty) = true then _ else _) = _
      rw [if_neg (by simp)]
  · show s.history ++
        [⟨d, i + 1, label, String.intercalate "," (losersOf m label), m.style,
          m.championship.getD ""⟩] = _
    rw [hlos]
  · intro p
    rw [hrecords]
    exact getWins_foldl_addLoss m.teams.flatten s.records p
  · intro hnd p hp
    have h1 := recLookup_foldl_addLoss_mem m.teams.flatten s.records p hnd hp
    unfold getLosses
    rw [hrecords, h1]
    cases hr : recLookup s.records p <;> rw [hr] at h1 <;> simp_all
  · intro x
    show x ∈ sortPool (returnToPool s s.mg_pool (losersOf m label)) ↔ _
    rw [mem_sortPool, mem_returnToPool, hlos]

theorem C1_witness :
    (stC1.booked_matches.get? 0 = some ⟨[["Alice"], ["Bob"]], "Ladder", none⟩ ∧
     ("Charlie" : String) ≠ "" ∧
     ([["Alice"], ["Bob"]] : List (List String)).find?
       (fun t => joinAmp t == "Charlie") = none) ∧
    (record_result stC1 0 "" "2026-01-01" = stC1 ∧
     (record_result stC1 0 "Charlie" "2026-01-01").history
       = stC1.history ++ [⟨"2026-01-01", 1, "Charlie", "Alice,Bob", "Ladder", ""⟩]) :=
  ⟨⟨rfl, by decide, rfl⟩,
   (C1_amended_unmatched_label stC1 0 ⟨[["Alice"], ["Bob"]], "Ladder", none⟩ "Charlie"
      "2026-01-01" rfl (by decide) rfl).1,
   (C1_amended_unmatched_label stC1 0 ⟨[["Alice"], ["Bob"]], "Ladder", none⟩ "Charlie"
      "2026-01-01" rfl (by decide) rfl).2.2.1⟩

/-! ## C6 — pool removal at assignment and brand-filtered return -/

/-- C6: assigning a pooled wrestler removes them from the pool; deleting a
match, clearing the card, or resolving a match against a participant puts
that participant back in the pool exactly when the active brand filter is
`"All"` or equals the wrestler's brand. -/
theorem C6_pool_round_trip (s : AppState) :
    (∀ q, q ∈ s.mg_pool → s.mg_pool.Nodup → q ∉ (add_competitor s q).mg_pool) ∧
    (∀ i m p, s.booked_matches.get? i = some m → p ∈ m.teams.flatten → p ∉ s.mg_pool →
        (p ∈ (delete_match s i).mg_pool ↔
          (s.mg_brand = "All" ∨ get_wrestler_brand s p = some s.mg_brand))) ∧
    (∀ p, p ∈ (s.booked_matches.map (fun m => m.teams.flatten)).flatten → p ∉ s.mg_pool →
        (p ∈ (clear_card s).mg_pool ↔
          (s.mg_brand = "All" ∨ get_wrestler_brand s p = some s.mg_brand))) ∧
    (∀ i m label d p, s.booked_matches.get? i = some m → label ≠ "" →
        p ∈ m.teams.flatten → p ∉ winnersOf m label → p ∉ s.mg_pool →
        (p ∈ (record_result s i label d).mg_pool ↔
          (s.mg_brand = "All" ∨ get_wrestler_brand s p = some s.mg_brand))) := by
  refine ⟨?_, ?_, ?_, ?_⟩
  · intro q hq hnd
    have hpool : (add_competitor s q).mg_pool = s.mg_pool.erase q := by
      unfold add_competitor
      rw [if_pos hq]
      cases hfe : firstVisibleEmpty s <;> rfl
    rw [hpool]
    intro hmem
    exact ((hnd.mem_erase_iff).mp hmem).1 rfl
  · intro i m p hm hp hnp
    have hpool : (delete_match s i).mg_pool
        = sortPool (returnToPool s s.mg_pool m.teams.flatten) := by
      simp only [delete_match, hm]
    rw [hpool, mem_sortPool, mem_returnToPool]
    constructor
    · rintro (hin | ⟨_, hok⟩)
      · exact absurd hin hnp
      · exact (brandOk_iff s p).mp hok
    · intro hcond
      exact Or.inr ⟨hp, (brandOk_iff s p).mpr hcond⟩
  · intro p hp hnp
    have hpool : (clear_card s).mg_pool
        = sortPool (returnToPool s s.mg_pool
            ((s.booked_matches.map (fun m => m.teams.flatten)).flatten)) := rfl
    rw [hpool, mem_sortPool, mem_returnToPool]
    constructor
    · rintro (hin | ⟨_, hok⟩)
      · exact absurd hin hnp
      · exact (brandOk_iff s p).mp hok
    · intro hcond
      exact Or.inr ⟨hp, (brandOk_iff s p).mpr hcond⟩
  · intro i m label d p hm hl hp hpw hnp
    rw [record_result_eq_applyResult s i m label d hm hl]
    have hpl : p ∈ losersOf m label := by
      unfold losersOf
      rw [List.mem_filter]
      refine ⟨hp, ?_⟩
      simpa using hpw
    have hpool : (applyResult s i m label d).mg_pool
        = sortPool (returnToPool s s.mg_pool (losersOf m label)) := rfl
    rw [hpool, mem_sortPool, mem_returnToPool]
    constructor
    · rintro (hin | ⟨_, hok⟩)
      · exact absurd hin hnp
      · exact (brandOk_iff s p).mp hok
    · intro hcond
      exact Or.inr ⟨hpl, (brandOk_iff s p).mpr hcond⟩

def stC6 : AppState :=
  { wrestlers := [⟨"Alice", "Female", "Face", "RAW"⟩, ⟨"Bob", "Male", "Heel", "SmackDown"⟩],
    records := [], championships := [], history := [], cards := [], next_card_id := 1,
    mg_brand := "RAW", mg_num := 2, mg_fmt := "1 v 1", mg_style := "Ladder",
    mg_champ := "None", mg_pool := [], mg_vars := List.replicate 8 "",
    slotVisible := [true, true, false, false, false, false, false, false],
    booked_matches := [⟨[["Alice"], ["Bob"]], "Ladder", none⟩],
    cardControls := [true] }

theorem C6_witness :
    (stC6.booked_matches.get? 0 = some ⟨[["Alice"], ["Bob"]], "Ladder", none⟩ ∧
     "Alice" ∈ ([["Alice"], ["Bob"]] : List (List String)).flatten ∧
     "Alice" ∉ stC6.mg_pool ∧ "Bob" ∉ stC6.mg_pool) ∧
    ("Alice" ∈ (delete_match stC6 0).mg_pool ↔
      (stC6.mg_brand = "All" ∨ get_wrestler_brand stC6 "Alice" = some stC6.mg_brand)) ∧
    ("Bob" ∈ (delete_match stC6 0).mg_pool ↔
      (stC6.mg_brand = "All" ∨ get_wrestler_brand stC6 "Bob" = some stC6.mg_brand)) :=
  ⟨⟨rfl, by decide, by decide, by decide⟩,
   (C6_pool_round_trip stC6).2.1 0 ⟨[["Alice"], ["Bob"]], "Ladder", none⟩ "Alice"
     rfl (by decide) (by decide),
   (C6_pool_round_trip stC6).2.1 0 ⟨[["Alice"], ["Bob"]], "Ladder", none⟩ "Bob"
     rfl (by decide) (by decide)⟩

/-! ## C10 — clicking a competitor in the gallery -/

def stC10 : AppState :=
  { wrestlers := [⟨"Alice", "Female", "Face", "RAW"⟩],
    records := [], championships := [], history := [], cards := [], next_card_id := 1,
    mg_brand := "All", mg_num := 2, mg_fmt := "1 v 1", mg_style := "Ladder",
    mg_champ := "None", mg_pool := ["Alice"], mg_vars := List.replicate 8 "",
    slotVisible := List.replicate 8 false,
    booked_matches := [], cardControls := [] }

/-- C10 fails on the code: with no visible empty slot, a pooled name is
still removed from the pool but is placed into no slot at all — the
claimed placement into "the first visible empty slot" does not happen. -/
theorem C10_counterexample :
    "Alice" ∈ stC10.mg_pool ∧
    (add_competitor stC10 "Alice").mg_pool = [] ∧
    (add_competitor stC10 "Alice").mg_vars = stC10.mg_vars := by
  decide

/-- C10 amended: a name not in the pool is a total no-op; a pooled name is
always removed from the pool (first occurrence) and is written into the
first visible empty slot when one exists — with no visible empty slot it
is removed from the pool without being placed anywhere.  The booked list
never changes. -/
theorem C10_amended (s : AppState) (name : String) :
    (name ∉ s.mg_pool → add_competitor s name = s) ∧
    (name ∈ s.mg_pool →
      (add_competitor s name).mg_pool = s.mg_pool.erase name ∧
      (add_competitor s name).booked_matches = s.booked_matches ∧
      (∀ i, firstVisibleEmpty s = some i →
          (add_competitor s name).mg_vars = s.mg_vars.set i name) ∧
      (firstVisibleEmpty s = none →
          (add_competitor s name).mg_vars = s.mg_vars)) := by
  constructor
  · intro h
    unfold add_competitor
    rw [if_neg h]
  · intro h
    refine ⟨?_, ?_, ?_, ?_⟩
    · unfold add_competitor
      rw [if_pos h]
      cases hfe : firstVisibleEmpty s <;> rfl
    · unfold add_competitor
      rw [if_pos h]
      cases hfe : firstVisibleEmpty s <;> rfl
    · intro i hi
      unfold add_competitor
      rw [if_pos h, hi]
    · intro hi
      unfold add_competitor
      rw [if_pos h, hi]

def stC10b : AppState :=
  { wrestlers := [⟨"Alice", "Female", "Face", "RAW"⟩],
    records := [], championships := [], history := [], cards := [], next_card_id := 1,
    mg_brand := "All", mg_num := 2, mg_fmt := "1 v 1", mg_style := "Ladder",
    mg_champ := "None", mg_pool := ["Alice"], mg_vars := List.replicate 8 "",
    slotVisible := [true, true, false, false, false, false, false, false],
    booked_matches := [], cardControls := [] }

theorem C10_witness :
    ("Zed" ∉ stC10b.mg_pool ∧ add_competitor stC10b "Zed" = stC10b) ∧
    ("Alice" ∈ stC10b.mg_pool ∧ firstVisibleEmpty stC10b = some 0 ∧
     (add_competitor stC10b "Alice").mg_pool = [] ∧
     (add_competitor stC10b "Alice").mg_vars = stC10b.mg_vars.set 0 "Alice") := by
  refine ⟨⟨by decide, (C10_amended stC10b "Zed").1 (by decide)⟩,
          by decide, rfl, ?_, ?_⟩
  · exact (((C10_amended stC10b "Alice").2 (by decide)).1).trans (by decide)
  · exact ((C10_amended stC10b "Alice").2 (by decide)).2.2.1 0 rfl

/-! ## C3 — what SetBrandFilter rebuilds -/

def stC3 : AppState :=
  { wrestlers := [⟨"Alice", "Female", "Face", "RAW"⟩, ⟨"Bob", "Male", "Heel", "RAW"⟩],
    records := [], championships := [], history := [], cards := [], next_card_id := 1,
    mg_brand := "All", mg_num := 2, mg_fmt := "1 v 1", mg_style := "Ladder",
    mg_champ := "None", mg_pool := [], mg_vars := List.replicate 8 "",
    slotVisible := [true, true, false, false, false, false, false, false],
    booked_matches := [⟨[["Alice"], ["Bob"]], "Ladder", none⟩],
    cardControls := [true] }

/-- C3 fails on the code: `"Alice"` already appears in a team of a booked
match, yet after the brand filter is re-applied she is back in the rebuilt
pool — booked participants are not excluded. -/
theorem C3_counterexample :
    "Alice" ∈ ((setBrandFilter stC3 "All").booked_matches.map
        (fun m => m.teams.flatten)).flatten ∧
    "Alice" ∈ (setBrandFilter stC3 "All").mg_pool := by
  decide

/-- C3 amended: with no championship selected, `SetBrandFilter` rebuilds
the pool as exactly the wrestlers whose brand matches the filter (all of
them for `"All"`), WITHOUT excluding wrestlers already booked, and clears
every in-progress participant-slot selection; the booked list itself is
untouched. -/
theorem C3_amended (s : AppState) (b : String) (hch : s.mg_champ = "None") :
    (∀ x, x ∈ (setBrandFilter s b).mg_pool ↔
        x ∈ (if b = "All" then s.wrestlers
             else s.wrestlers.filter (fun w => w.brand == b)).map (fun w => w.name)) ∧
    (setBrandFilter s b).mg_vars = List.replicate 8 "" ∧
    (setBrandFilter s b).booked_matches = s.booked_matches := by
  obtain ⟨hp, hv, hb⟩ := reset_mg_pool_champ_none { s with mg_brand := b } (by exact hch)
  refine ⟨?_, hv, hb⟩
  intro x
  show x ∈ (reset_mg_pool { s with mg_brand := b }).mg_pool ↔ _
  rw [hp, mem_sortPool]
  by_cases hball : b = "All" <;> simp [brandNames, hball]

theorem C3_witness :
    stC3.mg_champ = "None" ∧
    ("Alice" ∈ (setBrandFilter stC3 "RAW").mg_pool ↔
      "Alice" ∈ (if ("RAW" : String) = "All" then stC3.wrestlers
                 else stC3.wrestlers.filter (fun w => w.brand == "RAW")).map
                   (fun w => w.name)) ∧
    (setBrandFilter stC3 "RAW").mg_vars = List.replicate 8 "" :=
  ⟨rfl, (C3_amended stC3 "RAW" rfl).1 "Alice", (C3_amended stC3 "RAW" rfl).2.1⟩

/-! ## C2 — committing a match with the current slots -/

def stC2a : AppState :=
  { wrestlers := [⟨"Alice", "Female", "Face", "RAW"⟩, ⟨"Bob", "Male", "Heel", "RAW"⟩],
    records := [], championships := [], history := [], cards := [], next_card_id := 1,
    mg_brand := "All", mg_num := 2, mg_fmt := "1 v 1", mg_style := "Ladder",
    mg_champ := "None", mg_pool := ["Bob"],
    mg_vars := ["Alice", "", "", "", "", "", "", ""],
    slotVisible := [true, true, false, false, false, false, false, false],
    booked_matches := [], cardControls := [] }

def stC2b : AppState :=
  { wrestlers := [⟨"Alice", "Female", "Face", "RAW"⟩, ⟨"Bob", "Male", "Heel", "RAW"⟩,
                  ⟨"Carol", "Female", "Heel", "RAW"⟩],
    records := [], championships := [], history := [], cards := [], next_card_id := 1,
    mg_brand := "All", mg_num := 2, mg_fmt := "1 v 1", mg_style := "Ladder",
    mg_champ := "None", mg_pool := ["Carol"],
    mg_vars := ["Alice", "Bob", "", "", "", "", "", ""],
    slotVisible := [true, true, false, false, false, false, false, false],
    booked_matches := [], cardControls := [] }

/-- C2 fails on the code twice over: `stC2a` has its second exposed slot
empty, yet `add_to_card` still appends a booked match (with an empty
second team) instead of failing; `stC2b` has both exposed slots filled
(the success case) yet the commit removes zero names — not `totalCount`
names — from the pool, the participants having already left the pool at
assignment time. -/
theorem C2_counterexample :
    (stC2a.slotVisible.getD 1 false = true ∧ stC2a.mg_vars.getD 1 "" = "" ∧
     (add_to_card stC2a).booked_matches.length = stC2a.booked_matches.length + 1 ∧
     (add_to_card stC2a).booked_matches = [⟨[["Alice"], []], "Ladder", none⟩]) ∧
    (stC2b.mg_vars.getD 0 "" ≠ "" ∧ stC2b.mg_vars.getD 1 "" ≠ "" ∧
     parseFmt stC2b.mg_fmt = some [1, 1] ∧
     (add_to_card stC2b).mg_pool = stC2b.mg_pool) := by
  decide

/-- C2 amended: `CommitMatch` never fails — whatever the slot contents, it
appends exactly one BookedMatch whose teams partition the filled slots
contiguously in slot order per the active shape (the partition is exact
when the filled slots number `totalCount`), and it removes from the pool
exactly those filled names still present there; in the normal flow the
pool reduction of one name per slot already happened at assignment, each
`AssignParticipant` of a pooled name shrinking the pool by exactly one. -/
theorem C2_amended (s : AppState) (nums : List Nat)
    (hfmt : parseFmt s.mg_fmt = some nums) :
    ((add_to_card s).booked_matches = s.booked_matches ++
        [⟨chunk nums (s.mg_vars.filter (fun v => v != "")), s.mg_style,
          if (s.mg_champ != "" && s.mg_champ != "None") = true then some s.mg_champ
          else none⟩]) ∧
    (s.mg_pool.Nodup → ∀ x, x ∈ (add_to_card s).mg_pool ↔
        (x ∈ s.mg_pool ∧ x ∉ s.mg_vars.filter (fun v => v != ""))) ∧
    ((s.mg_vars.filter (fun v => v != "")).length = nums.sum →
        ((chunk nums (s.mg_vars.filter (fun v => v != ""))).map List.length = nums ∧
         (chunk nums (s.mg_vars.filter (fun v => v != ""))).flatten
           = s.mg_vars.filter (fun v => v != ""))) ∧
    (∀ name ∈ s.mg_pool, (add_competitor s name).mg_pool.length + 1
        = s.mg_pool.length) := by
  have hA : add_to_card s = { s with
      mg_pool := sortPool ((s.mg_vars.filter (fun v => v != "")).foldl
        (fun acc p => acc.erase p) s.mg_pool),
      booked_matches := s.booked_matches ++
        [⟨chunk nums (s.mg_vars.filter (fun v => v != "")), s.mg_style,
          if (s.mg_champ != "" && s.mg_champ != "None") = true then some s.mg_champ
          else none⟩],
      mg_vars := List.replicate 8 "",
      cardControls := List.replicate (s.booked_matches.length + 1) true } := by
    unfold add_to_card
    rw [hfmt]
  refine ⟨by rw [hA], ?_, ?_, ?_⟩
  · intro hnd x
    rw [hA]
    show x ∈ sortPool ((s.mg_vars.filter (fun v => v != "")).foldl
      (fun acc p => acc.erase p) s.mg_pool) ↔ _
    rw [mem_sortPool, foldl_erase_eq_filter _ _ hnd, List.mem_filter]
    simp
    intro _
    tauto
  · intro hlen
    refine ⟨chunk_lengths nums _ (le_of_eq hlen.symm), ?_⟩
    rw [chunk_flatten, ← hlen]
    exact List.take_length _
  · intro name hname
    have hpool : (add_competitor s name).mg_pool = s.mg_pool.erase name := by
      unfold add_competitor
      rw [if_pos hname]
      cases hfe : firstVisibleEmpty s <;> rfl
    rw [hpool, List.length_erase_of_mem hname]
    have hpos : 0 < s.mg_pool.length := List.length_pos_of_mem hname
    omega

theorem C2_witness :
    parseFmt stC2b.mg_fmt = some [1, 1] ∧
    (add_to_card stC2b).booked_matches
      = stC2b.booked_matches ++ [⟨[["Alice"], ["Bob"]], "Ladder", none⟩] ∧
    (stC2b.mg_vars.filter (fun v => v != "")).length = ([1, 1] : List Nat).sum ∧
    (chunk [1, 1] (stC2b.mg_vars.filter (fun v => v != ""))).map List.length = [1, 1] ∧
    (∀ name ∈ stC2b.mg_pool,
        (add_competitor stC2b name).mg_pool.length + 1 = stC2b.mg_pool.length) :=
  ⟨rfl,
   (C2_amended stC2b [1, 1] rfl).1,
   by decide,
   ((C2_amended stC2b [1, 1] rfl).2.2.1 (by decide)).1,
   (C2_amended stC2b [1, 1] rfl).2.2.2⟩

/-! ## C5 — the post-resolution guard and its lifetime -/

lemma uiRecordResult_of_disabled (t : AppState) (i : Nat) (l2 d2 : String)
    (h : t.cardControls.getD i false = false) : uiRecordResult t i l2 d2 = t := by
  unfold uiRecordResult
  rw [if_neg (fun hc => Bool.false_ne_true (h.symm.trans hc))]

lemma uiMoveMatch_of_disabled (t : AppState) (i : Nat) (delta : Int)
    (h : t.cardControls.getD i false = false) : uiMoveMatch t i delta = t := by
  unfold uiMoveMatch
  rw [if_neg (fun hc => Bool.false_ne_true (h.symm.trans hc))]

def stC5 : AppState :=
  { wrestlers := [⟨"Alice", "Female", "Face", "RAW"⟩, ⟨"Bob", "Male", "Heel", "RAW"⟩,
                  ⟨"Carol", "Female", "Face", "RAW"⟩, ⟨"Dave", "Male", "Heel", "RAW"⟩],
    records := [], championships := [], history := [], cards := [], next_card_id := 1,
    mg_brand := "All", mg_num := 2, mg_fmt := "1 v 1", mg_style := "Ladder",
    mg_champ := "None", mg_pool := [], mg_vars := List.replicate 8 "",
    slotVisible := [true, true, false, false, false, false, false, false],
    booked_matches := [⟨[["Alice"], ["Bob"]], "Ladder", none⟩,
                       ⟨[["Carol"], ["Dave"]], "Tables", none⟩],
    cardControls := [true, true] }

/-- C5 fails on the code: after resolving match 0 its controls are
disabled, but reordering the *other* match rebuilds the whole card display
with every control enabled again, and a second result recording on the
already-resolved match (now at index 1) goes through and double-increments
the winner's counter. -/
theorem C5_counterexample :
    getWins (uiRecordResult stC5 0 "Alice" "2026-01-01").records "Alice" = 1 ∧
    (uiRecordResult stC5 0 "Alice" "2026-01-01").cardControls = [false, true] ∧
    (uiMoveMatch (uiRecordResult stC5 0 "Alice" "2026-01-01") 1 (-1)).cardControls
      = [true, true] ∧
    getWins ((uiRecordResult (uiMoveMatch
        (uiRecordResult stC5 0 "Alice" "2026-01-01") 1 (-1)) 1
        "Alice" "2026-01-01").records) "Alice" = 2 := by
  decide

/-- C5 amended: immediately after a successful RecordResult the match's
controls are disabled, so a second RecordResult or a reorder of that match
through its controls is rejected with no state change — but only until the
card display is next rebuilt (by adding, deleting or reordering a match,
or loading a card), which re-enables the controls of resolved matches as
well; a result recorded again after such a rebuild double-increments the
counters. -/
theorem C5_amended (s : AppState) (i : Nat) (label d : String)
    (hctrl : s.cardControls.getD i false = true)
    (hi : i < s.booked_matches.length) (hl : label ≠ "") :
    ((uiRecordResult s i label d).cardControls.getD i false = false) ∧
    (∀ label2 d2, uiRecordResult (uiRecordResult s i label d) i label2 d2
        = uiRecordResult s i label d) ∧
    (∀ delta, uiMoveMatch (uiRecordResult s i label d) i delta
        = uiRecordResult s i label d) := by
  obtain ⟨m, hm⟩ : ∃ m, s.booked_matches.get? i = some m := by
    cases hgm : s.booked_matches.get? i with
    | none => exact absurd (List.get?_eq_none.mp hgm) (Nat.not_le_of_lt hi)
    | some m => exact ⟨m, rfl⟩
  have hui : uiRecordResult s i label d = applyResult s i m label d := by
    unfold uiRecordResult
    rw [if_pos hctrl, record_result_eq_applyResult s i m label d hm hl]
  have hclen : i < s.cardControls.length := lt_length_of_getD_true _ _ hctrl
  have hfalse : (uiRecordResult s i label d).cardControls.getD i false = false := by
    rw [hui]
    show (s.cardControls.set i false).getD i false = false
    exact getD_set_false _ _ hclen
  exact ⟨hfalse,
         fun label2 d2 => uiRecordResult_of_disabled _ i label2 d2 hfalse,
         fun delta => uiMoveMatch_of_disabled _ i delta hfalse⟩

theorem C5_witness :
    (stC5.cardControls.getD 0 false = true ∧ 0 < stC5.booked_matches.length ∧
     ("Alice" : String) ≠ "") ∧
    (uiRecordResult stC5 0 "Alice" "2026-01-01").cardControls.getD 0 false = false ∧
    uiRecordResult (uiRecordResult stC5 0 "Alice" "2026-01-01") 0 "Bob" "2026-01-02"
      = uiRecordResult stC5 0 "Alice" "2026-01-01" ∧
    uiMoveMatch (uiRecordResult stC5 0 "Alice" "2026-01-01") 0 1
      = uiRecordResult stC5 0 "Alice" "2026-01-01" :=
  ⟨⟨by decide, by decide, by decide⟩,
   (C5_amended stC5 0 "Alice" "2026-01-01" (by decide) (by decide) (by decide)).1,
   (C5_amended stC5 0 "Alice" "2026-01-01" (by decide) (by decide) (by decide)).2.1
     "Bob" "2026-01-02",
   (C5_amended stC5 0 "Alice" "2026-01-01" (by decide) (by decide) (by decide)).2.2 1⟩
